import Mathlib

/-!
# massFileDownload (Lightning web component)

A shallow embedding of `force-app/main/default/lwc/massFileDownload/massFileDownload.js`.

The component talks to four outside capabilities: the Apex method `getFiles`, the JSZip
library, the FileSaver function `saveAs`, and the toast event of the host.  Every call made
on one of them is recorded as an `Event`; what the capability answers is read from an `Env`.
A promise is modelled by the way it settles (`Outcome`), an `await` by a case split on it.

What is taken from outside the file: `recordIds` is an array of strings and the fields of a
file are strings, as the Apex controller declares them; after both scripts have loaded,
`window.JSZip` and `window.saveAs` are defined; `folder.file` and `dispatchEvent` do not
throw; `generateAsync` resolves to a blob of the archive it is called on, or rejects.
-/

namespace MassFileDownload

/-! ## JavaScript values -/

/-- The JavaScript values an `error` can be.  Of an object only what `showError` looks at is
kept: whether `'message' in error` holds and, when it does, the value of `error.message`.
Of a number only its type is observed by the code. -/
inductive JsVal where
  | undefined
  | null
  | bool (b : Bool)
  | num (n : ℤ)
  | str (s : String)
  | objNoMessage
  | objMessage (m : JsVal)
  deriving DecidableEq, Repr

/-- The string `typeof v` evaluates to. -/
def JsVal.typeof : JsVal → String
  | .undefined => "undefined"
  | .null => "object"
  | .bool _ => "boolean"
  | .num _ => "number"
  | .str _ => "string"
  | .objNoMessage => "object"
  | .objMessage _ => "object"

/-- Truthiness (`ToBoolean`). -/
def JsVal.truthy : JsVal → Bool
  | .undefined => false
  | .null => false
  | .bool b => b
  | .num n => n != 0
  | .str s => s != ""
  | .objNoMessage => true
  | .objMessage _ => true

/-- The test `'message' in v`, for a `v` that is an object. -/
def JsVal.hasMessage : JsVal → Bool
  | .objMessage _ => true
  | _ => false

/-- The property read `v.message`; a property that is not there reads as `undefined`. -/
def JsVal.message : JsVal → JsVal
  | .objMessage m => m
  | _ => .undefined

/-- How a promise settles. -/
inductive Outcome (α : Type) where
  | resolved (value : α)
  | rejected (reason : JsVal)
  deriving DecidableEq, Repr

/-! ## Numbers

`recordsProcessed` and `totalRecords` are array lengths and counters, hence non-negative
integers below `2 ^ 32`, represented exactly.  `/` and `*` are the IEEE 754 binary64
operations: the exact result rounded to the nearest value with a 53-bit significand, ties to
even.  Between `2 ^ (-1022)` and `2 ^ 1024`, where every quotient and product of
`updateProgress` lies, that is `roundDouble`. -/

/-- Nearest integer, a tie going to the even neighbour. -/
def roundHalfEven (m : ℚ) : ℤ :=
  let f := ⌊m⌋
  let d := m - f
  if d < 1 / 2 then f
  else if 1 / 2 < d then f + 1
  else if f % 2 = 0 then f else f + 1

/-- Rounding of a positive rational to 53 significant bits. -/
def roundPos (x : ℚ) : ℚ :=
  let e := Int.log 2 x
  let ulp : ℚ := 2 ^ (e - 52)
  roundHalfEven (x / ulp) * ulp

/-- Rounding to the nearest binary64 value (exponent range not bounded). -/
def roundDouble (x : ℚ) : ℚ :=
  if x = 0 then 0 else if 0 < x then roundPos x else -roundPos (-x)

/-- The non-negative Number values: `NaN`, `Infinity` and the finite ones. -/
inductive JsNumber where
  | nan
  | inf
  | fin (q : ℚ)
  deriving DecidableEq, Repr

/-- The quotient `a / b` of two non-negative integers. -/
def JsNumber.divNat (a b : ℕ) : JsNumber :=
  if b = 0 then (if a = 0 then .nan else .inf)
  else .fin (roundDouble ((a : ℚ) / (b : ℚ)))

/-- The product `x * k` of a non-negative Number and a non-negative integer. -/
def JsNumber.mulNat : JsNumber → ℕ → JsNumber
  | .nan, _ => .nan
  | .inf, k => if k = 0 then .nan else .inf
  | .fin q, k => .fin (roundDouble (q * (k : ℚ)))

/-- What `Math.floor` returns: `NaN`, `Infinity` or an integer. -/
inductive JsInteger where
  | nan
  | inf
  | int (n : ℤ)
  deriving DecidableEq, Repr

/-- The function `Math.floor`. -/
def mathFloor : JsNumber → JsInteger
  | .nan => .nan
  | .inf => .inf
  | .fin q => .int ⌊q⌋

/-- The text a template literal gives for the number. -/
def JsInteger.toString : JsInteger → String
  | .nan => "NaN"
  | .inf => "Infinity"
  | .int n => ToString.toString n

/-- The comparison `a <= b`; it is false as soon as one side is `NaN`. -/
def JsInteger.le : JsInteger → JsInteger → Prop
  | .int a, .int b => a ≤ b
  | .int _, .inf => True
  | .inf, .inf => True
  | _, _ => False

instance JsInteger.decidableLe : DecidableRel JsInteger.le := fun a b => by
  cases a <;> cases b <;> simp only [JsInteger.le] <;> infer_instance

/-! ## Data model -/

/-- One file as `getFiles` returns it: three strings, `body` being base64 text. -/
structure FileRecord where
  fileName : String
  body : String
  recordName : String
  deriving DecidableEq, Repr

/-- What `getFiles` resolves to: an array of files, or `none` for `null` / `undefined`. -/
abbrev JsFiles := Option (List FileRecord)

/-- The object literal `record` built in `handleDownload`. -/
structure RecordGroup where
  recordId : String
  recordName : String
  files : List FileRecord
  deriving DecidableEq, Repr

/-- One call `folder.file(name, data, { base64 })`. -/
structure ZipEntry where
  name : String
  data : String
  base64 : Bool
  deriving DecidableEq, Repr

/-- The calls made on one JSZip instance: the folder created and the files added to it. -/
structure Archive where
  folder : String
  entries : List ZipEntry
  deriving DecidableEq, Repr

/-- The value `generateAsync` resolves to: the serialized archive and the requested type. -/
structure Blob where
  content : Archive
  type : String
  deriving DecidableEq, Repr

/-- The calls on the outside capabilities and the writes to the progress fields. -/
inductive Event where
  | loadScript (resource : String)
  | getFiles (recordIds : List String)
  | toast (title : String) (message : JsVal) (variant : String)
  | newZip
  | zipFolder (name : String)
  | zipFile (name : String) (data : String) (base64 : Bool)
  | generateAsync (type : String)
  | saveAs (blob : Blob) (filename : String)
  | progress (percentage : JsInteger) (style : String)
  deriving DecidableEq, Repr

/-- The fields of the component.  `recordIds` is the array of identifier strings the Flow
passes in.  `jszipLib` and `fileSaverLib` are `true` when the field holds the library entry
point and `false` while it is `undefined`. -/
structure Component where
  recordIds : List String
  zipInitialized : Bool
  fileSaverInitialized : Bool
  jszipLib : Bool
  fileSaverLib : Bool
  progressPercentage : JsInteger
  progressBarStyle : String
  recordsProcessed : ℕ
  totalRecords : ℕ
  deriving DecidableEq, Repr

/-- The component as its class body initialises it. -/
def Component.init (recordIds : List String) : Component :=
  { recordIds := recordIds, zipInitialized := false, fileSaverInitialized := false,
    jszipLib := false, fileSaverLib := false, progressPercentage := .int 0,
    progressBarStyle := "width: 0%", recordsProcessed := 0, totalRecords := 0 }

/-- The answers of the outside capabilities during one `handleDownload`.  The first argument
is the position in `recordIds` of the record being processed when the call is made; `none`
stands for success and `some e` for a rejection or a throw with `e`. -/
structure Env where
  getFiles : ℕ → List String → Outcome JsFiles
  generateAsync : ℕ → Archive → Option JsVal
  saveAs : ℕ → Blob → String → Option JsVal

/-- What an asynchronous method leaves behind: the component, the events in order, and the
reason of the rejection when it rejects. -/
structure Run where
  state : Component
  trace : List Event
  thrown : Option JsVal
  deriving DecidableEq, Repr

/-! ## The methods -/

/-- The method `showError`. -/
def showError (title : String) (error : JsVal) : List Event :=
  let message :=
    if error.truthy && error.typeof == "object" && error.hasMessage then error.message
    else if error.typeof == "string" then error
    else JsVal.str "Unknown error"
  [Event.toast title message "error"]

/-- The method `connectedCallback`; `load` is how `Promise.all` of the two `loadScript`
calls settles. -/
def connectedCallback (load : Option JsVal) (c : Component) : Component × List Event :=
  let calls := [Event.loadScript "jszip", Event.loadScript "fileSaver"]
  match load with
  | none =>
    ({ c with jszipLib := true, fileSaverLib := true, zipInitialized := true,
              fileSaverInitialized := true }, calls)
  | some error => (c, calls ++ showError "Error loading libraries" error)

/-- The method `fetchFilesForRecord`; `getFiles` answers the one call it makes. -/
def fetchFilesForRecord (getFiles : List String → Outcome JsFiles) (recordId : String) :
    List Event × Outcome JsFiles :=
  match getFiles [recordId] with
  | .resolved files => ([Event.getFiles [recordId]], .resolved files)
  | .rejected error =>
    ([Event.getFiles [recordId]] ++ showError "Error fetching files for record" error,
      .resolved (some []))

/-- The characters of the class `[\/\\?%*:|"<>]`, by code point:
`/ \ ? % * : | " < >`. -/
def unsafeChars : List Char :=
  [Char.ofNat 47, Char.ofNat 92, Char.ofNat 63, Char.ofNat 37, Char.ofNat 42,
   Char.ofNat 58, Char.ofNat 124, Char.ofNat 34, Char.ofNat 60, Char.ofNat 62]

/-- The call `recordName.replace(/[\/\\?%*:|"<>]/g, '_')`. -/
def sanitize (recordName : String) : String :=
  String.mk (recordName.data.map (fun ch => if ch ∈ unsafeChars then Char.ofNat 95 else ch))

/-- The error of `new this.jszipLib()` while `jszipLib` is `undefined`. -/
def jszipNotLoaded : JsVal :=
  .objMessage (.str "this.jszipLib is not a constructor")

/-- The error of `this.fileSaverLib(...)` while `fileSaverLib` is `undefined`. -/
def fileSaverNotLoaded : JsVal :=
  .objMessage (.str "this.fileSaverLib is not a function")

/-- The archive `createAndDownloadZip` fills for a record. -/
def archiveOf (record : RecordGroup) : Archive :=
  { folder := record.recordName,
    entries := record.files.map (fun file => ⟨file.fileName, file.body, true⟩) }

/-- The method `createAndDownloadZip` for the record at position `i`: the events and the
reason of the rejection, if the promise rejects. -/
def createAndDownloadZip (env : Env) (i : ℕ) (c : Component) (record : RecordGroup) :
    List Event × Option JsVal :=
  if record.files.length = 0 then ([], none)
  else if !c.jszipLib then ([], some jszipNotLoaded)
  else
    let build :=
      [Event.newZip, Event.zipFolder record.recordName]
        ++ record.files.map (fun file => Event.zipFile file.fileName file.body true)
        ++ [Event.generateAsync "blob"]
    match env.generateAsync i (archiveOf record) with
    | some error => (build ++ showError "Error generating ZIP file" error, some error)
    | none =>
      let blob : Blob := ⟨archiveOf record, "blob"⟩
      let filename := record.recordName ++ ".zip"
      if !c.fileSaverLib then
        (build ++ showError "Error generating ZIP file" fileSaverNotLoaded,
          some fileSaverNotLoaded)
      else
        match env.saveAs i blob filename with
        | some error =>
          (build ++ [Event.saveAs blob filename]
            ++ showError "Error generating ZIP file" error, some error)
        | none => (build ++ [Event.saveAs blob filename], none)

/-- The expression `Math.floor((recordsProcessed / totalRecords) * 100)`. -/
def percentage (recordsProcessed totalRecords : ℕ) : JsInteger :=
  mathFloor ((JsNumber.divNat recordsProcessed totalRecords).mulNat 100)

/-- The method `updateProgress`. -/
def updateProgress (c : Component) : Component :=
  let p := percentage c.recordsProcessed c.totalRecords
  { c with progressPercentage := p, progressBarStyle := "width: " ++ p.toString ++ "%" }

/-- The end of the loop body: `this.recordsProcessed++; this.updateProgress();`. -/
def advance (c : Component) : Component :=
  updateProgress { c with recordsProcessed := c.recordsProcessed + 1 }

/-- The first four statements of `handleDownload`. -/
def resetProgress (c : Component) : Component :=
  { c with totalRecords := c.recordIds.length, recordsProcessed := 0,
           progressPercentage := JsInteger.int 0, progressBarStyle := "width: 0%" }

/-- The `if` of the loop body: the archive step for the files fetched, skipped when `files`
is falsy or empty. -/
def archiveStep (env : Env) (i : ℕ) (c : Component) (recordId : String) :
    JsFiles → List Event × Option JsVal
  | some (file :: files) =>
    createAndDownloadZip env i c
      { recordId := recordId, recordName := sanitize file.recordName, files := file :: files }
  | _ => ([], none)

/-- The `for` loop of `handleDownload` from position `i` on, over the identifiers left. -/
def processRecords (env : Env) : ℕ → Component → List String → Run
  | _, c, [] => ⟨c, [], none⟩
  | i, c, recordId :: rest =>
    match fetchFilesForRecord (env.getFiles i) recordId with
    | (fetched, .rejected error) => ⟨c, fetched, some error⟩
    | (fetched, .resolved files) =>
      match archiveStep env i c recordId files with
      | (zipped, some error) => ⟨c, fetched ++ zipped, some error⟩
      | (zipped, none) =>
        let c1 := advance c
        let later := processRecords env (i + 1) c1 rest
        ⟨later.state,
          fetched ++ zipped ++ [Event.progress c1.progressPercentage c1.progressBarStyle]
            ++ later.trace,
          later.thrown⟩

/-- The method `handleDownload`: the body runs inside `try`, and `catch` reports what was
thrown. -/
def handleDownload (env : Env) (c : Component) : Run :=
  let c0 := resetProgress c
  let reset := [Event.progress c0.progressPercentage c0.progressBarStyle]
  let looped := processRecords env 0 c0 c0.recordIds
  match looped.thrown with
  | none => ⟨looped.state, reset ++ looped.trace, none⟩
  | some error =>
    ⟨looped.state, reset ++ looped.trace ++ showError "Error fetching files" error, none⟩

/-! ## Observations on a trace -/

/-- The values `progressPercentage` takes, in order. -/
def progressValues (trace : List Event) : List JsInteger :=
  trace.filterMap (fun ev => match ev with
    | .progress p _ => some p
    | _ => none)

/-- The arguments of the calls to `getFiles`, in order. -/
def fetchCalls (trace : List Event) : List (List String) :=
  trace.filterMap (fun ev => match ev with
    | .getFiles ids => some ids
    | _ => none)

/-- Whether the event is a call on the archive library or on `saveAs`. -/
def Event.isArchiveOrSave : Event → Bool
  | .newZip => true
  | .zipFolder _ => true
  | .zipFile _ _ _ => true
  | .generateAsync _ => true
  | .saveAs _ _ => true
  | _ => false

/-- Whether the event is a call to `loadScript`. -/
def Event.isLoad : Event → Bool
  | .loadScript _ => true
  | _ => false

/-- Whether the event is a call to `saveAs`. -/
def Event.isSave : Event → Bool
  | .saveAs _ _ => true
  | _ => false

/-- The calls to `saveAs`, in order. -/
def saveCalls (trace : List Event) : List Event :=
  trace.filter Event.isSave

/-- The calls to `loadScript`, in order. -/
def loadCalls (trace : List Event) : List Event :=
  trace.filter Event.isLoad

/-- The archive step of the record at position `i` goes through: if its fetch resolves to
at least one file, then JSZip is there, `generateAsync` resolves, FileSaver is there and
`saveAs` returns. -/
def ArchiveSucceeds (env : Env) (c : Component) (i : ℕ) (recordId : String) : Prop :=
  ∀ file files, env.getFiles i [recordId] = .resolved (some (file :: files)) →
    c.jszipLib = true ∧ c.fileSaverLib = true ∧
    env.generateAsync i
      (archiveOf ⟨recordId, sanitize file.recordName, file :: files⟩) = none ∧
    env.saveAs i ⟨archiveOf ⟨recordId, sanitize file.recordName, file :: files⟩, "blob"⟩
      (sanitize file.recordName ++ ".zip") = none

/-! ## The statements of the specification, in its own words -/

/-- The save the specification expects for one record: none unless the fetch returned at
least one file, and then a blob of one folder named after the sanitized record name of the
first file, holding one base64 entry per file, saved under that name with `.zip`. -/
def expectedSave : Outcome JsFiles → Option Event
  | .resolved (some (file :: files)) =>
    some (Event.saveAs
      ⟨⟨sanitize file.recordName,
          (file :: files).map (fun f => ⟨f.fileName, f.body, true⟩)⟩, "blob"⟩
      (sanitize file.recordName ++ ".zip"))
  | _ => none

/-- The message the specification gives a notification: the message field of an object
(`undefined` when the object has none), a string itself, `"Unknown error"` otherwise. -/
def specMessage : JsVal → JsVal
  | .objMessage m => m
  | .objNoMessage => .undefined
  | .str s => .str s
  | _ => .str "Unknown error"

/-! ## Concrete runs -/

/-- A component whose libraries are loaded. -/
def loadedComponent (recordIds : List String) : Component :=
  (connectedCallback none (Component.init recordIds)).1

/-- Two files of the record named `A/B`. -/
def filesAB : List FileRecord :=
  [⟨"a.txt", "QQ==", "A/B"⟩, ⟨"b.txt", "Qg==", "A/B"⟩]

/-- The first record has the two files of `A/B`, every other record has none; every
serialization and save succeeds. -/
def scenarioEnv : Env :=
  { getFiles := fun i _ => if i = 0 then .resolved (some filesAB) else .resolved (some []),
    generateAsync := fun _ _ => none,
    saveAs := fun _ _ _ => none }

/-- Every fetch returns the two files of `A/B`, every serialization rejects. -/
def zipFailsEnv : Env :=
  { getFiles := fun _ _ => .resolved (some filesAB),
    generateAsync := fun _ _ => some (.objMessage (.str "out of memory")),
    saveAs := fun _ _ _ => none }

/-- Every fetch returns the two files of `A/B`; the serialization of the second record
(position 1) rejects, every other one resolves. -/
def secondZipFailsEnv : Env :=
  { getFiles := fun _ _ => .resolved (some filesAB),
    generateAsync := fun i _ => if i = 1 then some (.objMessage (.str "out of memory")) else none,
    saveAs := fun _ _ _ => none }

/-- Every fetch rejects with the error object of an Apex failure, whose text is under
`body.message`: the object itself has no `message`. -/
def fetchFailsEnv : Env :=
  { getFiles := fun _ _ => .rejected .objNoMessage,
    generateAsync := fun _ _ => none,
    saveAs := fun _ _ _ => none }

/-- A component with one hundred records, twenty-nine of them processed. -/
def twentyNineOfHundred : Component :=
  { Component.init (List.replicate 100 "r") with recordsProcessed := 29, totalRecords := 100 }

/-! ## Rounding -/

theorem floor_le_roundHalfEven (m : ℚ) : ⌊m⌋ ≤ roundHalfEven m := by
  simp only [roundHalfEven]
  split_ifs <;> omega

theorem roundHalfEven_le_floor_succ (m : ℚ) : roundHalfEven m ≤ ⌊m⌋ + 1 := by
  simp only [roundHalfEven]
  split_ifs <;> omega

theorem roundHalfEven_intCast (k : ℤ) : roundHalfEven (k : ℚ) = k := by
  simp [roundHalfEven]

theorem roundHalfEven_mono {m n : ℚ} (h : m ≤ n) : roundHalfEven m ≤ roundHalfEven n := by
  rcases (Int.floor_mono h).lt_or_eq with hlt | heq
  · calc roundHalfEven m ≤ ⌊m⌋ + 1 := roundHalfEven_le_floor_succ m
      _ ≤ ⌊n⌋ := hlt
      _ ≤ roundHalfEven n := floor_le_roundHalfEven n
  · simp only [roundHalfEven, heq]
    split_ifs <;> first | omega | (exfalso; linarith)

theorem two_zpow_split (e : ℤ) (k : ℕ) : (2 : ℚ) ^ (e - 52) * 2 ^ k = 2 ^ (e - 52 + k) := by
  rw [zpow_add₀ (by norm_num : (2 : ℚ) ≠ 0), zpow_natCast]

theorem roundPos_eq {x : ℚ} {e : ℤ} (hlo : (2 : ℚ) ^ e ≤ x) (hhi : x < 2 ^ (e + 1)) :
    roundPos x = roundHalfEven (x / 2 ^ (e - 52)) * 2 ^ (e - 52) := by
  have hx : 0 < x := lt_of_lt_of_le (by positivity) hlo
  have he : Int.log 2 x = e := by
    apply le_antisymm
    · have := (Int.lt_zpow_iff_log_lt (R := ℚ) (b := 2) (by norm_num) hx).1 (by exact_mod_cast hhi)
      omega
    · exact (Int.zpow_le_iff_le_log (R := ℚ) (b := 2) (by norm_num) hx).1 (by exact_mod_cast hlo)
  simp only [roundPos, he]

theorem roundPos_bounds {x : ℚ} {e : ℤ} (hlo : (2 : ℚ) ^ e ≤ x) (hhi : x < 2 ^ (e + 1)) :
    (2 : ℚ) ^ e ≤ roundPos x ∧ roundPos x ≤ 2 ^ (e + 1) := by
  have hu : (0 : ℚ) < 2 ^ (e - 52) := by positivity
  have h52 : (2 : ℚ) ^ (e - 52) * 4503599627370496 = 2 ^ e := by
    have h := two_zpow_split e 52
    rw [show e - 52 + ((52 : ℕ) : ℤ) = e by omega] at h
    rw [← h]; norm_num
  have h53 : (2 : ℚ) ^ (e - 52) * 9007199254740992 = 2 ^ (e + 1) := by
    have h := two_zpow_split e 53
    rw [show e - 52 + ((53 : ℕ) : ℤ) = e + 1 by omega] at h
    rw [← h]; norm_num
  rw [roundPos_eq hlo hhi]
  have hm1 : ((4503599627370496 : ℤ) : ℚ) ≤ x / 2 ^ (e - 52) := by
    rw [le_div_iff₀ hu]; push_cast; rw [mul_comm, h52]; exact hlo
  have hm2 : x / 2 ^ (e - 52) ≤ ((9007199254740992 : ℤ) : ℚ) := by
    rw [div_le_iff₀ hu]; push_cast; rw [mul_comm, h53]; exact hhi.le
  have r1 := roundHalfEven_mono hm1
  have r2 := roundHalfEven_mono hm2
  rw [roundHalfEven_intCast] at r1 r2
  have q1 : (4503599627370496 : ℚ) ≤ (roundHalfEven (x / 2 ^ (e - 52)) : ℚ) := by
    exact_mod_cast r1
  have q2 : (roundHalfEven (x / 2 ^ (e - 52)) : ℚ) ≤ 9007199254740992 := by
    exact_mod_cast r2
  constructor
  · calc (2 : ℚ) ^ e = 4503599627370496 * 2 ^ (e - 52) := by rw [mul_comm, h52]
      _ ≤ roundHalfEven (x / 2 ^ (e - 52)) * 2 ^ (e - 52) :=
          mul_le_mul_of_nonneg_right q1 hu.le
  · calc (roundHalfEven (x / 2 ^ (e - 52)) : ℚ) * 2 ^ (e - 52)
        ≤ 9007199254740992 * 2 ^ (e - 52) := mul_le_mul_of_nonneg_right q2 hu.le
      _ = 2 ^ (e + 1) := by rw [mul_comm, h53]

theorem log_bounds {x : ℚ} (hx : 0 < x) :
    (2 : ℚ) ^ Int.log 2 x ≤ x ∧ x < 2 ^ (Int.log 2 x + 1) := by
  constructor
  · exact_mod_cast Int.zpow_log_le_self (R := ℚ) (b := 2) (by norm_num) hx
  · exact_mod_cast Int.lt_zpow_succ_log_self (R := ℚ) (b := 2) (by norm_num) x

theorem roundPos_mono {x y : ℚ} (hx : 0 < x) (h : x ≤ y) : roundPos x ≤ roundPos y := by
  have hy : 0 < y := lt_of_lt_of_le hx h
  obtain ⟨hx1, hx2⟩ := log_bounds hx
  obtain ⟨hy1, hy2⟩ := log_bounds hy
  rcases (Int.log_mono_right (b := 2) hx h).lt_or_eq with hlt | heq
  · calc roundPos x ≤ 2 ^ (Int.log 2 x + 1) := (roundPos_bounds hx1 hx2).2
      _ ≤ 2 ^ Int.log 2 y := zpow_le_zpow_right₀ (by norm_num) (by omega)
      _ ≤ roundPos y := (roundPos_bounds hy1 hy2).1
  · simp only [roundPos, heq]
    apply mul_le_mul_of_nonneg_right _ (by positivity)
    have : x / 2 ^ (Int.log 2 y - 52) ≤ y / 2 ^ (Int.log 2 y - 52) :=
      div_le_div_of_nonneg_right h (by positivity)
    exact_mod_cast roundHalfEven_mono this

theorem roundPos_pos {x : ℚ} (hx : 0 < x) : 0 < roundPos x := by
  obtain ⟨h1, h2⟩ := log_bounds hx
  exact lt_of_lt_of_le (by positivity) (roundPos_bounds h1 h2).1

theorem roundDouble_nonneg {x : ℚ} (hx : 0 ≤ x) : 0 ≤ roundDouble x := by
  unfold roundDouble
  split_ifs with h0 hp
  · exact le_rfl
  · exact (roundPos_pos hp).le
  · exact absurd (lt_of_le_of_ne hx (Ne.symm h0)) hp

theorem roundDouble_mono {x y : ℚ} (hx : 0 ≤ x) (h : x ≤ y) : roundDouble x ≤ roundDouble y := by
  rcases hx.lt_or_eq with hpos | hzero
  · have hy : 0 < y := lt_of_lt_of_le hpos h
    simp only [roundDouble, hpos.ne', hy.ne', hpos, hy, if_true, if_false]
    exact roundPos_mono hpos h
  · subst hzero
    simpa [roundDouble] using roundDouble_nonneg (hx.trans h)

theorem roundDouble_eq {x : ℚ} (e : ℤ) (hlo : (2 : ℚ) ^ e ≤ x) (hhi : x < 2 ^ (e + 1)) :
    roundDouble x = roundHalfEven (x / 2 ^ (e - 52)) * 2 ^ (e - 52) := by
  have hx : 0 < x := lt_of_lt_of_le (by positivity) hlo
  simp only [roundDouble, hx.ne', hx, if_true, if_false]
  exact roundPos_eq hlo hhi

theorem roundDouble_one : roundDouble 1 = 1 := by
  rw [roundDouble_eq 0 (by norm_num) (by norm_num)]
  have : (1 : ℚ) / 2 ^ ((0 : ℤ) - 52) = ((2 ^ 52 : ℤ) : ℚ) := by norm_num
  rw [this, roundHalfEven_intCast]; norm_num

theorem roundDouble_hundred : roundDouble 100 = 100 := by
  rw [roundDouble_eq 6 (by norm_num) (by norm_num)]
  have : (100 : ℚ) / 2 ^ ((6 : ℤ) - 52) = ((100 * 2 ^ 46 : ℤ) : ℚ) := by norm_num
  rw [this, roundHalfEven_intCast]; norm_num

theorem roundDouble_half : roundDouble (1 / 2) = 1 / 2 := by
  rw [roundDouble_eq (-1) (by norm_num) (by norm_num)]
  have : (1 / 2 : ℚ) / 2 ^ ((-1 : ℤ) - 52) = ((2 ^ 52 : ℤ) : ℚ) := by norm_num
  rw [this, roundHalfEven_intCast]; norm_num

theorem roundDouble_fifty : roundDouble 50 = 50 := by
  rw [roundDouble_eq 5 (by norm_num) (by norm_num)]
  have : (50 : ℚ) / 2 ^ ((5 : ℤ) - 52) = ((50 * 2 ^ 47 : ℤ) : ℚ) := by norm_num
  rw [this, roundHalfEven_intCast]; norm_num

theorem roundHalfEven_of_lt {m : ℚ} (k : ℤ) (h1 : (k : ℚ) ≤ m) (h2 : m < k + 1 / 2) :
    roundHalfEven m = k := by
  have hf : ⌊m⌋ = k := by
    rw [Int.floor_eq_iff]; constructor
    · exact h1
    · linarith
  simp only [roundHalfEven, hf]
  rw [if_pos (by linarith)]


/-! ## The percentage -/

theorem roundDouble_29_100 :
    roundDouble (29 / 100) = 5224175567749775 / 18014398509481984 := by
  rw [roundDouble_eq (-2) (by norm_num) (by norm_num)]
  rw [roundHalfEven_of_lt 5224175567749775 (by norm_num) (by norm_num)]
  norm_num

theorem roundDouble_29_100_times :
    roundDouble (5224175567749775 / 18014398509481984 * 100)
      = 8162774324609023 / 281474976710656 := by
  rw [roundDouble_eq 4 (by norm_num) (by norm_num)]
  rw [roundHalfEven_of_lt 8162774324609023 (by norm_num) (by norm_num)]
  norm_num

theorem percentage_eq (r : ℕ) {t : ℕ} (ht : t ≠ 0) :
    percentage r t = .int ⌊roundDouble (roundDouble ((r : ℚ) / (t : ℚ)) * 100)⌋ := by
  simp [percentage, JsNumber.divNat, ht, JsNumber.mulNat, mathFloor]

theorem percentage_self {t : ℕ} (ht : t ≠ 0) : percentage t t = .int 100 := by
  have h : ((t : ℚ) / (t : ℚ)) = 1 := div_self (by exact_mod_cast ht)
  rw [percentage_eq t ht, h, roundDouble_one, one_mul, roundDouble_hundred]
  norm_num

theorem percentage_mono {r s t : ℕ} (ht : t ≠ 0) (h : r ≤ s) :
    (percentage r t).le (percentage s t) := by
  rw [percentage_eq r ht, percentage_eq s ht]
  have ht' : (0 : ℚ) < t := by exact_mod_cast Nat.pos_of_ne_zero ht
  have h1 : (r : ℚ) / t ≤ (s : ℚ) / t :=
    div_le_div_of_nonneg_right (by exact_mod_cast h) ht'.le
  have h0 : (0 : ℚ) ≤ (r : ℚ) / t := by positivity
  have h2 := roundDouble_mono h0 h1
  have h3 : 0 ≤ roundDouble ((r : ℚ) / t) * 100 :=
    mul_nonneg (roundDouble_nonneg h0) (by norm_num)
  have h4 := roundDouble_mono h3 (mul_le_mul_of_nonneg_right h2 (by norm_num))
  exact Int.floor_mono h4

theorem percentage_nonneg (r : ℕ) {t : ℕ} (ht : t ≠ 0) :
    (JsInteger.int 0).le (percentage r t) := by
  rw [percentage_eq r ht]
  have h0 : (0 : ℚ) ≤ (r : ℚ) / t := by positivity
  have h3 : 0 ≤ roundDouble ((r : ℚ) / t) * 100 :=
    mul_nonneg (roundDouble_nonneg h0) (by norm_num)
  exact Int.floor_nonneg.2 (roundDouble_nonneg h3)

theorem percentage_le_hundred {r t : ℕ} (ht : t ≠ 0) (h : r ≤ t) :
    (percentage r t).le (.int 100) := by
  have := percentage_mono ht h
  rwa [percentage_self ht] at this

theorem percentage_29_100 : percentage 29 100 = .int 28 := by
  rw [percentage_eq 29 (by norm_num)]
  have h : ((29 : ℕ) : ℚ) / ((100 : ℕ) : ℚ) = 29 / 100 := by norm_num
  rw [h, roundDouble_29_100, roundDouble_29_100_times]
  congr 1
  rw [Int.floor_eq_iff]
  constructor <;> norm_num

theorem percentage_1_2 : percentage 1 2 = .int 50 := by
  rw [percentage_eq 1 (by norm_num)]
  have h : ((1 : ℕ) : ℚ) / ((2 : ℕ) : ℚ) = 1 / 2 := by norm_num
  rw [h, roundDouble_half]
  have h2 : (1 / 2 : ℚ) * 100 = 50 := by norm_num
  rw [h2, roundDouble_fifty]
  norm_num

/-! ## The loop -/

theorem showError_eq (title : String) (error : JsVal) :
    ∃ message, showError title error = [Event.toast title message "error"] :=
  ⟨_, rfl⟩

theorem advance_recordsProcessed (c : Component) :
    (advance c).recordsProcessed = c.recordsProcessed + 1 := rfl

theorem advance_totalRecords (c : Component) :
    (advance c).totalRecords = c.totalRecords := rfl

theorem advance_progressPercentage (c : Component) :
    (advance c).progressPercentage = percentage (c.recordsProcessed + 1) c.totalRecords := rfl

theorem archiveSucceeds_advance (env : Env) (c : Component) (i : ℕ) (recordId : String) :
    ArchiveSucceeds env (advance c) i recordId ↔ ArchiveSucceeds env c i recordId :=
  Iff.rfl

theorem progressValues_append (xs ys : List Event) :
    progressValues (xs ++ ys) = progressValues xs ++ progressValues ys := by
  simp [progressValues]

theorem fetchCalls_append (xs ys : List Event) :
    fetchCalls (xs ++ ys) = fetchCalls xs ++ fetchCalls ys := by
  simp [fetchCalls]

theorem saveCalls_append (xs ys : List Event) :
    saveCalls (xs ++ ys) = saveCalls xs ++ saveCalls ys := by
  simp [saveCalls]

theorem progressValues_showError (title : String) (error : JsVal) :
    progressValues (showError title error) = [] := rfl

theorem fetchCalls_showError (title : String) (error : JsVal) :
    fetchCalls (showError title error) = [] := rfl

theorem saveCalls_showError (title : String) (error : JsVal) :
    saveCalls (showError title error) = [] := rfl

theorem progressValues_zipFiles (files : List FileRecord) :
    progressValues (files.map (fun file => Event.zipFile file.fileName file.body true)) = [] := by
  induction files with
  | nil => rfl
  | cons f fs ih => simp [progressValues]

theorem fetchCalls_zipFiles (files : List FileRecord) :
    fetchCalls (files.map (fun file => Event.zipFile file.fileName file.body true)) = [] := by
  induction files with
  | nil => rfl
  | cons f fs ih => simp [fetchCalls]

theorem saveCalls_zipFiles (files : List FileRecord) :
    saveCalls (files.map (fun file => Event.zipFile file.fileName file.body true)) = [] := by
  induction files with
  | nil => rfl
  | cons f fs ih => simp [saveCalls, Event.isSave]

/-- The events of `fetchFilesForRecord`: one call of `getFiles`, no progress, no save. -/
theorem fetch_observed (getFiles : List String → Outcome JsFiles) (recordId : String) :
    progressValues (fetchFilesForRecord getFiles recordId).1 = [] ∧
    fetchCalls (fetchFilesForRecord getFiles recordId).1 = [[recordId]] ∧
    saveCalls (fetchFilesForRecord getFiles recordId).1 = [] ∧
    ∃ files, (fetchFilesForRecord getFiles recordId).2 = .resolved files := by
  unfold fetchFilesForRecord
  cases getFiles [recordId] with
  | resolved files => exact ⟨rfl, rfl, rfl, _, rfl⟩
  | rejected e => exact ⟨rfl, rfl, rfl, _, rfl⟩

/-- The events of the archive step: no progress and no fetch. -/
theorem archiveStep_observed (env : Env) (i : ℕ) (c : Component) (recordId : String)
    (files : JsFiles) :
    progressValues (archiveStep env i c recordId files).1 = [] ∧
    fetchCalls (archiveStep env i c recordId files).1 = [] := by
  rcases files with _ | _ | ⟨f, fs⟩
  · exact ⟨rfl, rfl⟩
  · exact ⟨rfl, rfl⟩
  · simp only [archiveStep, createAndDownloadZip]
    repeat' split
    all_goals
      try simp only [progressValues_append, fetchCalls_append, progressValues_zipFiles,
        fetchCalls_zipFiles, progressValues_showError, fetchCalls_showError]
    all_goals exact ⟨rfl, rfl⟩

/-- One turn of the loop: the fetch resolves, and either the archive step throws and the
loop stops there, or the counter advances and the loop goes on with the next record. -/
theorem processRecords_cons (env : Env) (i : ℕ) (c : Component) (recordId : String)
    (rest : List String) :
    ∃ files, (fetchFilesForRecord (env.getFiles i) recordId).2 = .resolved files ∧
      processRecords env i c (recordId :: rest) =
        match (archiveStep env i c recordId files).2 with
        | some error =>
          ⟨c, (fetchFilesForRecord (env.getFiles i) recordId).1
                ++ (archiveStep env i c recordId files).1, some error⟩
        | none =>
          ⟨(processRecords env (i + 1) (advance c) rest).state,
            (fetchFilesForRecord (env.getFiles i) recordId).1
              ++ (archiveStep env i c recordId files).1
              ++ [Event.progress (advance c).progressPercentage (advance c).progressBarStyle]
              ++ (processRecords env (i + 1) (advance c) rest).trace,
            (processRecords env (i + 1) (advance c) rest).thrown⟩ := by
  obtain ⟨_, _, _, files, hf⟩ := fetch_observed (env.getFiles i) recordId
  refine ⟨files, hf, ?_⟩
  rw [processRecords]
  rcases hfetch : fetchFilesForRecord (env.getFiles i) recordId with ⟨fetched, out⟩
  rw [hfetch] at hf
  simp only at hf
  subst hf
  rcases hzip : archiveStep env i c recordId files with ⟨zipped, _ | e⟩ <;> simp only [hzip]

/-- The progress values of the loop: the percentages of the counts that follow the current
one, as many as turns were completed. -/
theorem processRecords_progress (env : Env) :
    ∀ (ids : List String) (i : ℕ) (c : Component),
      ∃ m, m ≤ ids.length ∧
        progressValues (processRecords env i c ids).trace
          = (List.range' (c.recordsProcessed + 1) m).map
              (fun k => percentage k c.totalRecords) ∧
        (processRecords env i c ids).state.recordsProcessed = c.recordsProcessed + m ∧
        (processRecords env i c ids).state.totalRecords = c.totalRecords := by
  intro ids
  induction ids with
  | nil => intro i c; exact ⟨0, le_rfl, rfl, rfl, rfl⟩
  | cons recordId rest ih =>
    intro i c
    obtain ⟨files, -, hrun⟩ := processRecords_cons env i c recordId rest
    obtain ⟨hp, -, -, -⟩ := fetch_observed (env.getFiles i) recordId
    obtain ⟨hz, -⟩ := archiveStep_observed env i c recordId files
    rw [hrun]
    cases (archiveStep env i c recordId files).2 with
    | some e =>
      refine ⟨0, Nat.zero_le _, ?_, rfl, rfl⟩
      simp only [progressValues_append, hp, hz]
      rfl
    | none =>
      obtain ⟨m, hm, hprog, hrp, htot⟩ := ih (i + 1) (advance c)
      refine ⟨m + 1, by simpa using hm, ?_, ?_, ?_⟩
      · simp only [progressValues_append, hp, hz, hprog, List.range'_succ, List.map_cons,
          advance_recordsProcessed, advance_totalRecords]
        rfl
      · simp only [hrp, advance_recordsProcessed]; omega
      · simp only [htot, advance_totalRecords]

/-- A turn whose archive step goes through does not throw and saves what is expected. -/
theorem archiveStep_ok (env : Env) (i : ℕ) (c : Component) (recordId : String)
    (h : ArchiveSucceeds env c i recordId) (files : JsFiles)
    (hf : (fetchFilesForRecord (env.getFiles i) recordId).2 = .resolved files) :
    (archiveStep env i c recordId files).2 = none ∧
    saveCalls (archiveStep env i c recordId files).1
      = (expectedSave (env.getFiles i [recordId])).toList := by
  unfold fetchFilesForRecord at hf
  rcases hg : env.getFiles i [recordId] with fl | e
  · rw [hg] at hf
    simp only [Outcome.resolved.injEq] at hf
    subst hf
    rcases fl with _ | _ | ⟨f, fs⟩
    · exact ⟨rfl, rfl⟩
    · exact ⟨rfl, rfl⟩
    · obtain ⟨h1, h2, h3, h4⟩ := h f fs hg
      have hstep : archiveStep env i c recordId (some (f :: fs)) =
          ([Event.newZip, Event.zipFolder (sanitize f.recordName)]
            ++ (f :: fs).map (fun file => Event.zipFile file.fileName file.body true)
            ++ [Event.generateAsync "blob"]
            ++ [Event.saveAs ⟨archiveOf ⟨recordId, sanitize f.recordName, f :: fs⟩, "blob"⟩
                  (sanitize f.recordName ++ ".zip")], none) := by
        simp [archiveStep, createAndDownloadZip, h1, h2, h3, h4]
      rw [hstep]
      simp only [saveCalls_append, saveCalls_zipFiles]
      exact ⟨trivial, rfl⟩
  · rw [hg] at hf
    simp only [Outcome.resolved.injEq] at hf
    subst hf
    exact ⟨rfl, rfl⟩

/-- A run in which every archive step goes through: nothing is thrown, every record is
counted, fetched once, and saved as expected. -/
theorem processRecords_ok (env : Env) :
    ∀ (ids : List String) (i : ℕ) (c : Component),
      (∀ j id, ids[j]? = some id → ArchiveSucceeds env c (i + j) id) →
      (processRecords env i c ids).thrown = none ∧
      (processRecords env i c ids).state.recordsProcessed = c.recordsProcessed + ids.length ∧
      (ids ≠ [] → (processRecords env i c ids).state.progressPercentage
          = percentage (c.recordsProcessed + ids.length) c.totalRecords) ∧
      progressValues (processRecords env i c ids).trace
        = (List.range' (c.recordsProcessed + 1) ids.length).map
            (fun k => percentage k c.totalRecords) ∧
      fetchCalls (processRecords env i c ids).trace = ids.map (fun id => [id]) ∧
      saveCalls (processRecords env i c ids).trace
        = (ids.enumFrom i).filterMap (fun p => expectedSave (env.getFiles p.1 [p.2])) := by
  intro ids
  induction ids with
  | nil => intro i c _; exact ⟨rfl, rfl, fun h => absurd rfl h, rfl, rfl, rfl⟩
  | cons recordId rest ih =>
    intro i c hall
    obtain ⟨files, hf, hrun⟩ := processRecords_cons env i c recordId rest
    obtain ⟨hp, hfc, hsc, -⟩ := fetch_observed (env.getFiles i) recordId
    obtain ⟨hzp, hzf⟩ := archiveStep_observed env i c recordId files
    have h0 : ArchiveSucceeds env c i recordId := by
      simpa using hall 0 recordId (by simp)
    obtain ⟨hnone, hsave⟩ := archiveStep_ok env i c recordId h0 files hf
    have hrest : ∀ j id, rest[j]? = some id → ArchiveSucceeds env (advance c) (i + 1 + j) id := by
      intro j id hj
      have := hall (j + 1) id (by simpa using hj)
      rw [archiveSucceeds_advance]
      rwa [show i + 1 + j = i + (j + 1) by omega]
    obtain ⟨ht, hrp, hpp, hprog, hfetch, hsaves⟩ := ih (i + 1) (advance c) hrest
    rw [hrun, hnone]
    refine ⟨ht, ?_, ?_, ?_, ?_, ?_⟩
    · simp only [hrp, advance_recordsProcessed, List.length_cons]; omega
    · intro _
      rcases rest with _ | ⟨r, rs⟩
      · rfl
      · rw [hpp (by simp)]
        simp only [advance_recordsProcessed, advance_totalRecords, List.length_cons]
        congr 1
        omega
    · simp only [progressValues_append, hp, hzp, hprog, List.length_cons, List.range'_succ,
        List.map_cons, advance_recordsProcessed, advance_totalRecords]
      rfl
    · simp only [fetchCalls_append, hfc, hzf, hfetch, List.map_cons]
      rfl
    · simp only [saveCalls_append, hsc, hsave, hsaves, List.enumFrom_cons,
        List.filterMap_cons]
      cases expectedSave (env.getFiles i [recordId]) <;> rfl

/-- The loop over `xs ++ ys`, when it gets through `xs`, goes on over `ys` from there. -/
theorem processRecords_append (env : Env) (ys : List String) :
    ∀ (xs : List String) (i : ℕ) (c : Component),
      (processRecords env i c xs).thrown = none →
      processRecords env i c (xs ++ ys) =
        ⟨(processRecords env (i + xs.length) (processRecords env i c xs).state ys).state,
          (processRecords env i c xs).trace
            ++ (processRecords env (i + xs.length) (processRecords env i c xs).state ys).trace,
          (processRecords env (i + xs.length) (processRecords env i c xs).state ys).thrown⟩ := by
  intro xs
  induction xs with
  | nil => intro i c _; rfl
  | cons recordId rest ih =>
    intro i c hnone
    obtain ⟨files, hf, hrun⟩ := processRecords_cons env i c recordId rest
    obtain ⟨files2, hf2, hrun2⟩ := processRecords_cons env i c recordId (rest ++ ys)
    rw [hf] at hf2
    simp only [Outcome.resolved.injEq] at hf2
    subst hf2
    rw [List.cons_append, hrun2]
    rw [hrun] at hnone ⊢
    cases hz : (archiveStep env i c recordId files).2 with
    | some e => rw [hz] at hnone; simp at hnone
    | none =>
      rw [hz] at hnone
      simp only at hnone ⊢
      rw [ih (i + 1) (advance c) hnone]
      simp only [List.length_cons, List.append_assoc, Run.mk.injEq]
      rw [show i + (rest.length + 1) = i + 1 + rest.length by omega]
      exact ⟨rfl, rfl, rfl⟩

/-- The turn in which `generateAsync` rejects. -/
theorem processRecords_zipFails (env : Env) (i : ℕ) (c : Component) (recordId : String)
    (rest : List String) (file : FileRecord) (files : List FileRecord) (err : JsVal)
    (hfetch : env.getFiles i [recordId] = .resolved (some (file :: files)))
    (hlib : c.jszipLib = true)
    (hgen : env.generateAsync i
      (archiveOf ⟨recordId, sanitize file.recordName, file :: files⟩) = some err) :
    processRecords env i c (recordId :: rest) =
      ⟨c, [Event.getFiles [recordId], Event.newZip, Event.zipFolder (sanitize file.recordName)]
            ++ (file :: files).map (fun f => Event.zipFile f.fileName f.body true)
            ++ [Event.generateAsync "blob"]
            ++ showError "Error generating ZIP file" err,
        some err⟩ := by
  simp [processRecords, fetchFilesForRecord, hfetch, archiveStep, createAndDownloadZip, hlib,
    hgen]


/-- The loop never touches the library fields. -/
theorem processRecords_libs (env : Env) :
    ∀ (ids : List String) (i : ℕ) (c : Component),
      (processRecords env i c ids).state.jszipLib = c.jszipLib ∧
      (processRecords env i c ids).state.fileSaverLib = c.fileSaverLib := by
  intro ids
  induction ids with
  | nil => intro i c; exact ⟨rfl, rfl⟩
  | cons recordId rest ih =>
    intro i c
    obtain ⟨files, -, hrun⟩ := processRecords_cons env i c recordId rest
    rw [hrun]
    cases (archiveStep env i c recordId files).2 with
    | some e => exact ⟨rfl, rfl⟩
    | none => exact ih (i + 1) (advance c)

/-! ## handleDownload -/

theorem handleDownload_of_none (env : Env) (c : Component)
    (h : (processRecords env 0 (resetProgress c) c.recordIds).thrown = none) :
    handleDownload env c =
      ⟨(processRecords env 0 (resetProgress c) c.recordIds).state,
        [Event.progress (.int 0) "width: 0%"]
          ++ (processRecords env 0 (resetProgress c) c.recordIds).trace, none⟩ := by
  unfold handleDownload
  simp only [show (resetProgress c).recordIds = c.recordIds from rfl, h]
  rfl

theorem handleDownload_of_some (env : Env) (c : Component) (error : JsVal)
    (h : (processRecords env 0 (resetProgress c) c.recordIds).thrown = some error) :
    handleDownload env c =
      ⟨(processRecords env 0 (resetProgress c) c.recordIds).state,
        [Event.progress (.int 0) "width: 0%"]
          ++ (processRecords env 0 (resetProgress c) c.recordIds).trace
          ++ showError "Error fetching files" error, none⟩ := by
  unfold handleDownload
  simp only [show (resetProgress c).recordIds = c.recordIds from rfl, h]
  rfl

/-- The progress values of a whole run: the reset, then the percentages of `1, 2, ...` out of
the number of records, for the turns completed. -/
theorem handleDownload_progress (env : Env) (c : Component) :
    ∃ m, m ≤ c.recordIds.length ∧
      progressValues (handleDownload env c).trace
        = .int 0 :: (List.range' 1 m).map (fun k => percentage k c.recordIds.length) := by
  obtain ⟨m, hm, hprog, -, -⟩ := processRecords_progress env c.recordIds 0 (resetProgress c)
  refine ⟨m, hm, ?_⟩
  cases h : (processRecords env 0 (resetProgress c) c.recordIds).thrown with
  | none =>
    rw [handleDownload_of_none env c h]
    simp only [progressValues_append, hprog]
    rfl
  | some e =>
    rw [handleDownload_of_some env c e h]
    simp only [progressValues_append, hprog, progressValues_showError, List.append_nil]
    rfl

/-- C8: the values of `progressPercentage` during one `handleDownload`, the reset to 0
followed by every result of `updateProgress`, never decrease and never exceed 100, whatever
the fetches and the archive steps do. -/
theorem handleDownload_progress_monotone (env : Env) (c : Component) :
    List.Pairwise JsInteger.le (progressValues (handleDownload env c).trace) ∧
    ∀ v ∈ progressValues (handleDownload env c).trace, v.le (.int 100) := by
  obtain ⟨m, hm, hprog⟩ := handleDownload_progress env c
  rw [hprog]
  have hn : ∀ k ∈ List.range' 1 m, c.recordIds.length ≠ 0 ∧ k ≤ c.recordIds.length := by
    intro k hk
    rw [List.mem_range'_1] at hk
    omega
  constructor
  · rw [List.pairwise_cons]
    constructor
    · intro v hv
      rw [List.mem_map] at hv
      obtain ⟨k, hk, rfl⟩ := hv
      exact percentage_nonneg k (hn k hk).1
    · rw [List.pairwise_map]
      have hlt : List.Pairwise (fun a b => a < b) (List.range' 1 m) :=
        List.pairwise_lt_range' 1 m
      refine (List.Pairwise.and_mem.1 hlt).imp ?_
      intro a b hab
      exact percentage_mono (hn a hab.1).1 hab.2.2.le
  · intro v hv
    rw [List.mem_cons] at hv
    rcases hv with rfl | hv
    · show (0 : ℤ) ≤ 100
      norm_num
    · rw [List.mem_map] at hv
      obtain ⟨k, hk, rfl⟩ := hv
      exact percentage_le_hundred (hn k hk).1 (hn k hk).2

/-- A run in which every archive step goes through: the loop ends without a throw, with
every record counted. -/
theorem handleDownload_ok (env : Env) (c : Component)
    (hzip : ∀ j id, c.recordIds[j]? = some id → ArchiveSucceeds env c j id) :
    handleDownload env c =
      ⟨(processRecords env 0 (resetProgress c) c.recordIds).state,
        [Event.progress (.int 0) "width: 0%"]
          ++ (processRecords env 0 (resetProgress c) c.recordIds).trace, none⟩ ∧
    (processRecords env 0 (resetProgress c) c.recordIds).state.recordsProcessed
      = c.recordIds.length ∧
    (processRecords env 0 (resetProgress c) c.recordIds).state.totalRecords
      = c.recordIds.length ∧
    (c.recordIds ≠ [] →
      (processRecords env 0 (resetProgress c) c.recordIds).state.progressPercentage
        = .int 100) := by
  have hall : ∀ j id, c.recordIds[j]? = some id →
      ArchiveSucceeds env (resetProgress c) (0 + j) id := by
    intro j id hj
    rw [Nat.zero_add]
    exact hzip j id hj
  obtain ⟨hnone, hrp, hpp, -, -, -⟩ := processRecords_ok env c.recordIds 0 (resetProgress c) hall
  obtain ⟨m, -, -, -, htot⟩ := processRecords_progress env c.recordIds 0 (resetProgress c)
  refine ⟨handleDownload_of_none env c hnone, ?_, ?_, ?_⟩
  · rw [hrp]; exact Nat.zero_add _
  · rw [htot]; rfl
  · intro hne
    rw [hpp hne]
    have hlen : c.recordIds.length ≠ 0 := by
      intro h0
      exact hne (List.length_eq_zero.1 h0)
    have : (resetProgress c).recordsProcessed + c.recordIds.length = c.recordIds.length :=
      Nat.zero_add _
    rw [this]
    exact percentage_self hlen

/-- C1, as the code has it: for every non-empty `recordIds` in which every fetch resolves to
a non-empty file list and every archive step goes through (JSZip and FileSaver loaded,
`generateAsync` resolves, `saveAs` returns), `handleDownload` settles with
`recordsProcessed = totalRecords = recordIds.length` and `progressPercentage = 100`. -/
theorem handleDownload_completes (env : Env) (c : Component)
    (hne : c.recordIds ≠ [])
    (_hfetch : ∀ j id, c.recordIds[j]? = some id →
      ∃ file files, env.getFiles j [id] = .resolved (some (file :: files)))
    (hzip : ∀ j id, c.recordIds[j]? = some id → ArchiveSucceeds env c j id) :
    (handleDownload env c).thrown = none ∧
    (handleDownload env c).state.recordsProcessed = (handleDownload env c).state.totalRecords ∧
    (handleDownload env c).state.totalRecords = c.recordIds.length ∧
    (handleDownload env c).state.progressPercentage = .int 100 := by
  obtain ⟨hrun, hrp, htot, hpp⟩ := handleDownload_ok env c hzip
  rw [hrun]
  exact ⟨rfl, hrp.trans htot.symm, htot, hpp hne⟩

/-- C1 as stated fails: one record whose fetch resolves to two files while `generateAsync`
rejects leaves `recordsProcessed = 0` with `totalRecords = 1` and the percentage at 0. -/
theorem handleDownload_incomplete_when_zip_fails :
    (loadedComponent ["r1"]).recordIds ≠ [] ∧
    (∀ j id, (loadedComponent ["r1"]).recordIds[j]? = some id →
      ∃ file files, zipFailsEnv.getFiles j [id] = .resolved (some (file :: files))) ∧
    (handleDownload zipFailsEnv (loadedComponent ["r1"])).state.recordsProcessed = 0 ∧
    (handleDownload zipFailsEnv (loadedComponent ["r1"])).state.totalRecords = 1 ∧
    (handleDownload zipFailsEnv (loadedComponent ["r1"])).state.progressPercentage = .int 0 := by
  refine ⟨by decide, ?_, rfl, rfl, rfl⟩
  intro j id _
  exact ⟨_, _, rfl⟩

theorem scenario_archiveSucceeds (ids : List String) (j : ℕ) (id : String) :
    ArchiveSucceeds scenarioEnv (loadedComponent ids) j id := by
  intro file files _
  exact ⟨rfl, rfl, rfl, rfl⟩

/-- The theorem of C1 on a run of one record with two files. -/
theorem handleDownload_completes_witness :
    (handleDownload scenarioEnv (loadedComponent ["r1"])).thrown = none ∧
    (handleDownload scenarioEnv (loadedComponent ["r1"])).state.recordsProcessed
      = (handleDownload scenarioEnv (loadedComponent ["r1"])).state.totalRecords ∧
    (handleDownload scenarioEnv (loadedComponent ["r1"])).state.totalRecords = 1 ∧
    (handleDownload scenarioEnv (loadedComponent ["r1"])).state.progressPercentage = .int 100 :=
  handleDownload_completes scenarioEnv (loadedComponent ["r1"]) (by decide)
    (by
      intro j id h
      have hj : j = 0 := by
        rcases j with _ | j
        · rfl
        · simp [loadedComponent, connectedCallback, Component.init] at h
      subst hj
      exact ⟨_, _, rfl⟩)
    (fun j id _ => scenario_archiveSucceeds ["r1"] j id)

theorem ids_split {ids : List String} {k : ℕ} {recordId : String}
    (hk : ids[k]? = some recordId) :
    k < ids.length ∧ ids = ids.take k ++ recordId :: ids.drop (k + 1) := by
  obtain ⟨hlt, hget⟩ := List.getElem?_eq_some.1 hk
  refine ⟨hlt, ?_⟩
  rw [← hget, ← List.drop_eq_getElem_cons hlt, List.take_append_drop]

/-- C2: when the records before position `k` are processed without a throw and the
`generateAsync` of record `k`, which has at least one file, rejects, `handleDownload`
resolves, ends with `recordsProcessed = k < totalRecords`, has fetched only the records up to
`k` and saved only records before `k`, and its trace is the one of the first `k` records,
then the calls for record `k` up to `generateAsync`, then a notification titled
"Error generating ZIP file" followed by one titled "Error fetching files". -/
theorem handleDownload_zip_failure (env : Env) (c : Component) (k : ℕ) (recordId : String)
    (file : FileRecord) (files : List FileRecord) (err : JsVal)
    (hk : c.recordIds[k]? = some recordId)
    (hbefore : ∀ j id, j < k → c.recordIds[j]? = some id → ArchiveSucceeds env c j id)
    (hfetch : env.getFiles k [recordId] = .resolved (some (file :: files)))
    (hlib : c.jszipLib = true)
    (hgen : env.generateAsync k
      (archiveOf ⟨recordId, sanitize file.recordName, file :: files⟩) = some err) :
    (handleDownload env c).thrown = none ∧
    (handleDownload env c).state.recordsProcessed = k ∧
    (handleDownload env c).state.totalRecords = c.recordIds.length ∧
    k < c.recordIds.length ∧
    fetchCalls (handleDownload env c).trace = (c.recordIds.take (k + 1)).map (fun id => [id]) ∧
    saveCalls (handleDownload env c).trace
      = (c.recordIds.take k).enum.filterMap (fun p => expectedSave (env.getFiles p.1 [p.2])) ∧
    ∃ message, (handleDownload env c).trace =
      [Event.progress (.int 0) "width: 0%"]
        ++ (processRecords env 0 (resetProgress c) (c.recordIds.take k)).trace
        ++ ([Event.getFiles [recordId], Event.newZip,
              Event.zipFolder (sanitize file.recordName)]
            ++ (file :: files).map (fun f => Event.zipFile f.fileName f.body true)
            ++ [Event.generateAsync "blob"])
        ++ [Event.toast "Error generating ZIP file" message "error",
            Event.toast "Error fetching files" message "error"] := by
  obtain ⟨hlt, hsplit⟩ := ids_split hk
  have hpre : ∀ j id, (c.recordIds.take k)[j]? = some id →
      ArchiveSucceeds env (resetProgress c) (0 + j) id := by
    intro j id hj
    rw [List.getElem?_take] at hj
    split_ifs at hj with hjk
    rw [Nat.zero_add]; exact hbefore j id hjk hj
  obtain ⟨hnone, hrp, -, -, hfc, hsc⟩ :=
    processRecords_ok env (c.recordIds.take k) 0 (resetProgress c) hpre
  obtain ⟨m, -, -, -, htot⟩ :=
    processRecords_progress env (c.recordIds.take k) 0 (resetProgress c)
  have hlen : (c.recordIds.take k).length = k := by
    rw [List.length_take]; omega
  have hturn := processRecords_zipFails env k
    (processRecords env 0 (resetProgress c) (c.recordIds.take k)).state recordId
    (c.recordIds.drop (k + 1)) file files err hfetch
    (by
      have hl := (processRecords_libs env (c.recordIds.take k) 0 (resetProgress c)).1
      rw [hl]; exact hlib)
    hgen
  have hloop := processRecords_append env (recordId :: c.recordIds.drop (k + 1))
    (c.recordIds.take k) 0 (resetProgress c) hnone
  rw [← hsplit, hlen, Nat.zero_add, hturn] at hloop
  have hthrown : (processRecords env 0 (resetProgress c) c.recordIds).thrown = some err := by
    rw [hloop]
  rw [handleDownload_of_some env c err hthrown, hloop]
  obtain ⟨message, hmsg⟩ : ∃ message, ∀ title,
      showError title err = [Event.toast title message "error"] := ⟨_, fun _ => rfl⟩
  refine ⟨rfl, ?_, ?_, hlt, ?_, ?_, message, ?_⟩
  · show (processRecords env 0 (resetProgress c) (c.recordIds.take k)).state.recordsProcessed = k
    rw [hrp, hlen]; exact Nat.zero_add _
  · show (processRecords env 0 (resetProgress c) (c.recordIds.take k)).state.totalRecords = _
    rw [htot]; rfl
  · simp only [fetchCalls_append, hfc, fetchCalls_zipFiles, fetchCalls_showError]
    rw [List.take_succ, hk]
    simp [fetchCalls]
  · simp only [saveCalls_append, hsc, saveCalls_zipFiles, saveCalls_showError, List.enum]
    simp [saveCalls, Event.isSave]
  · simp only [hmsg, List.append_assoc, List.cons_append, List.nil_append]

/-- The theorem of C2 on three records, the serialization of the second one rejecting. -/
theorem handleDownload_zip_failure_witness :
    (handleDownload secondZipFailsEnv (loadedComponent ["r1", "r2", "r3"])).thrown = none ∧
    (handleDownload secondZipFailsEnv
      (loadedComponent ["r1", "r2", "r3"])).state.recordsProcessed = 1 ∧
    (handleDownload secondZipFailsEnv
      (loadedComponent ["r1", "r2", "r3"])).state.totalRecords = 3 ∧
    fetchCalls (handleDownload secondZipFailsEnv (loadedComponent ["r1", "r2", "r3"])).trace
      = [["r1"], ["r2"]] :=
  have h := handleDownload_zip_failure secondZipFailsEnv (loadedComponent ["r1", "r2", "r3"]) 1
    "r2" ⟨"a.txt", "QQ==", "A/B"⟩ [⟨"b.txt", "Qg==", "A/B"⟩]
    (.objMessage (.str "out of memory")) rfl
    (by
      intro j id hj _ file files _
      have hj0 : j = 0 := by omega
      subst hj0
      exact ⟨rfl, rfl, rfl, rfl⟩)
    rfl rfl rfl
  ⟨h.1, h.2.1, h.2.2.1, h.2.2.2.2.1⟩

/-- C3: `fetchFilesForRecord` makes one call of the fetch capability, with the list
`[recordId]`, and always resolves: to what the capability resolved to, without a
notification, when it resolves; to the empty array, after one notification titled
"Error fetching files for record", when it rejects. -/
theorem fetchFilesForRecord_spec (getFiles : List String → Outcome JsFiles)
    (recordId : String) :
    fetchCalls (fetchFilesForRecord getFiles recordId).1 = [[recordId]] ∧
    (∃ files, (fetchFilesForRecord getFiles recordId).2 = .resolved files) ∧
    (∀ files, getFiles [recordId] = .resolved files →
      fetchFilesForRecord getFiles recordId
        = ([Event.getFiles [recordId]], .resolved files)) ∧
    (∀ error, getFiles [recordId] = .rejected error →
      ∃ message, fetchFilesForRecord getFiles recordId
        = ([Event.getFiles [recordId],
            Event.toast "Error fetching files for record" message "error"],
           .resolved (some []))) := by
  obtain ⟨-, hcalls, -, hres⟩ := fetch_observed getFiles recordId
  refine ⟨hcalls, hres, ?_, ?_⟩
  · intro files h
    simp only [fetchFilesForRecord, h]
  · intro error h
    obtain ⟨message, hmsg⟩ := showError_eq "Error fetching files for record" error
    refine ⟨message, ?_⟩
    simp only [fetchFilesForRecord, h, hmsg]
    rfl

/-- The theorem of C3 on the fetch of `r1`, once rejecting and once resolving. -/
theorem fetchFilesForRecord_spec_witness :
    (∃ message, fetchFilesForRecord (fetchFailsEnv.getFiles 0) "r1"
      = ([Event.getFiles ["r1"],
          Event.toast "Error fetching files for record" message "error"],
         .resolved (some []))) ∧
    fetchFilesForRecord (scenarioEnv.getFiles 0) "r1"
      = ([Event.getFiles ["r1"]], .resolved (some filesAB)) :=
  ⟨(fetchFilesForRecord_spec (fetchFailsEnv.getFiles 0) "r1").2.2.2 .objNoMessage rfl,
   (fetchFilesForRecord_spec (scenarioEnv.getFiles 0) "r1").2.2.1 (some filesAB) rfl⟩

/-- C4: a record reached by the loop whose fetch resolves to an empty array, or rejects and
is absorbed into one, gets no call on the archive library and no call of `saveAs`; the
counter goes up by exactly one and the loop goes on with the next record. -/
theorem processRecords_no_files (env : Env) (i : ℕ) (c : Component) (recordId : String)
    (rest : List String)
    (h : env.getFiles i [recordId] = .resolved (some []) ∨
      ∃ error, env.getFiles i [recordId] = .rejected error) :
    ∃ fetched, (∀ ev ∈ fetched, ev.isArchiveOrSave = false) ∧
      (advance c).recordsProcessed = c.recordsProcessed + 1 ∧
      processRecords env i c (recordId :: rest) =
        ⟨(processRecords env (i + 1) (advance c) rest).state,
          fetched ++ [Event.progress (advance c).progressPercentage (advance c).progressBarStyle]
            ++ (processRecords env (i + 1) (advance c) rest).trace,
          (processRecords env (i + 1) (advance c) rest).thrown⟩ := by
  rcases h with h | ⟨error, h⟩
  · refine ⟨[Event.getFiles [recordId]], ?_, rfl, ?_⟩
    · intro ev hev
      rw [List.mem_singleton] at hev
      subst hev
      rfl
    · simp [processRecords, fetchFilesForRecord, h, archiveStep]
  · refine ⟨[Event.getFiles [recordId]] ++ showError "Error fetching files for record" error,
      ?_, rfl, ?_⟩
    · intro ev hev
      simp only [showError, List.mem_append, List.mem_singleton] at hev
      rcases hev with rfl | rfl <;> rfl
    · simp [processRecords, fetchFilesForRecord, h, archiveStep]

/-- The theorem of C4 on the second record of the scenario, which has no file. -/
theorem processRecords_no_files_witness :
    ∃ fetched, (∀ ev ∈ fetched, ev.isArchiveOrSave = false) ∧
      (advance (loadedComponent ["r1", "r2"])).recordsProcessed
        = (loadedComponent ["r1", "r2"]).recordsProcessed + 1 ∧
      processRecords scenarioEnv 1 (loadedComponent ["r1", "r2"]) ["r2"] =
        ⟨(processRecords scenarioEnv 2 (advance (loadedComponent ["r1", "r2"])) []).state,
          fetched ++ [Event.progress (advance (loadedComponent ["r1", "r2"])).progressPercentage
              (advance (loadedComponent ["r1", "r2"])).progressBarStyle]
            ++ (processRecords scenarioEnv 2 (advance (loadedComponent ["r1", "r2"])) []).trace,
          (processRecords scenarioEnv 2 (advance (loadedComponent ["r1", "r2"])) []).thrown⟩ :=
  processRecords_no_files scenarioEnv 1 (loadedComponent ["r1", "r2"]) "r2" [] (Or.inl rfl)

/-- C5: the sanitized name has the length of the name, `_` wherever the name has one of the
ten characters `/ \ ? % * : | " < >`, the character of the name everywhere else, and so none
of the ten characters. -/
theorem sanitize_spec (s : String) :
    (sanitize s).length = s.length ∧
    (∀ (i : ℕ) (ch : Char), s.data[i]? = some ch →
      (sanitize s).data[i]? = some
        (if ch ∈ ['/', '\\', '?', '%', '*', ':', '|', '"', '<', '>'] then '_' else ch)) ∧
    ∀ ch ∈ (sanitize s).data, ch ∉ ['/', '\\', '?', '%', '*', ':', '|', '"', '<', '>'] := by
  have hclass : unsafeChars = ['/', '\\', '?', '%', '*', ':', '|', '"', '<', '>'] := rfl
  rw [← hclass]
  refine ⟨?_, ?_, ?_⟩
  · show (s.data.map (fun ch => if ch ∈ unsafeChars then Char.ofNat 95 else ch)).length
      = s.data.length
    exact List.length_map _ _
  · intro i ch h
    show (s.data.map (fun ch => if ch ∈ unsafeChars then Char.ofNat 95 else ch))[i]? = _
    rw [List.getElem?_map, h]
    rfl
  · intro ch hch
    simp only [sanitize, List.mem_map] at hch
    obtain ⟨x, -, rfl⟩ := hch
    split_ifs with hx
    · decide
    · exact hx

/-- The theorem of C5 on a name that has each of the ten characters once, between two
letters, and on the record name `A/B`. -/
theorem sanitize_spec_witness :
    (sanitize (String.mk ['a', '/', '\\', '?', '%', '*', ':', '|', '"', '<', '>', 'b'])).length
      = 12 ∧
    (sanitize (String.mk ['a', '/', '\\', '?', '%', '*', ':', '|', '"', '<', '>', 'b'])).data[2]?
      = some '_' ∧
    sanitize (String.mk ['a', '/', '\\', '?', '%', '*', ':', '|', '"', '<', '>', 'b'])
      = "a__________b" ∧
    sanitize "A/B" = "A_B" :=
  ⟨(sanitize_spec (String.mk ['a', '/', '\\', '?', '%', '*', ':', '|', '"', '<', '>', 'b'])).1,
   (sanitize_spec (String.mk ['a', '/', '\\', '?', '%', '*', ':', '|', '"', '<', '>', 'b'])).2.1
      2 '\\' rfl,
   by decide, by decide⟩

/-- The progress values of a run in which every archive step goes through. -/
theorem handleDownload_ok_progress (env : Env) (c : Component)
    (hzip : ∀ j id, c.recordIds[j]? = some id → ArchiveSucceeds env c j id) :
    progressValues (handleDownload env c).trace
      = .int 0 :: (List.range' 1 c.recordIds.length).map
          (fun k => percentage k c.recordIds.length) := by
  have hall : ∀ j id, c.recordIds[j]? = some id →
      ArchiveSucceeds env (resetProgress c) (0 + j) id := by
    intro j id hj
    rw [Nat.zero_add]
    exact hzip j id hj
  obtain ⟨hnone, -, -, hprog, -, -⟩ :=
    processRecords_ok env c.recordIds 0 (resetProgress c) hall
  rw [handleDownload_of_none env c hnone]
  simp only [progressValues_append, hprog]
  rfl

/-- C6: when every fetch resolves and every archive step goes through, the calls of
`saveAs` are, in input order, one per record whose fetch returned at least one file, each
with the blob of a single folder named after the sanitized record name of the first file
holding one base64 entry per file in file order, under the file name made of that name and
`.zip`; one progress update is published per record, and the last one is 100. -/
theorem handleDownload_all_succeed (env : Env) (c : Component)
    (_hfetch : ∀ j id, c.recordIds[j]? = some id →
      ∃ files, env.getFiles j [id] = .resolved files)
    (hzip : ∀ j id, c.recordIds[j]? = some id → ArchiveSucceeds env c j id) :
    saveCalls (handleDownload env c).trace
      = c.recordIds.enum.filterMap (fun p => expectedSave (env.getFiles p.1 [p.2])) ∧
    progressValues (handleDownload env c).trace
      = .int 0 :: (List.range' 1 c.recordIds.length).map
          (fun k => percentage k c.recordIds.length) ∧
    (progressValues (handleDownload env c).trace).tail.length = c.recordIds.length ∧
    ∀ v, (progressValues (handleDownload env c).trace).tail.getLast? = some v →
      v = .int 100 := by
  have hall : ∀ j id, c.recordIds[j]? = some id →
      ArchiveSucceeds env (resetProgress c) (0 + j) id := by
    intro j id hj
    rw [Nat.zero_add]
    exact hzip j id hj
  obtain ⟨hnone, -, -, -, -, hsave⟩ :=
    processRecords_ok env c.recordIds 0 (resetProgress c) hall
  have hvalues := handleDownload_ok_progress env c hzip
  refine ⟨?_, hvalues, ?_, ?_⟩
  · rw [handleDownload_of_none env c hnone]
    simp only [saveCalls_append, hsave]
    rfl
  · rw [hvalues]
    simp
  · intro v hv
    rw [hvalues, List.tail_cons] at hv
    rcases hn : c.recordIds.length with _ | n
    · rw [hn] at hv
      simp at hv
    · rw [hn, List.range'_1_concat, List.map_append,
        List.map_singleton, List.getLast?_concat] at hv
      simp only [Option.some.injEq] at hv
      rw [← hv, Nat.add_comm 1 n]
      exact percentage_self (Nat.succ_ne_zero n)

/-- The theorem of C6 on the scenario of the specification: `r1` with two files of the
record `A/B`, `r2` with none; one save `A_B.zip` of two entries under `A_B`, and the
progress values 0, 50, 100. -/
theorem handleDownload_all_succeed_witness :
    saveCalls (handleDownload scenarioEnv (loadedComponent ["r1", "r2"])).trace
      = [Event.saveAs ⟨⟨"A_B", [⟨"a.txt", "QQ==", true⟩, ⟨"b.txt", "Qg==", true⟩]⟩, "blob"⟩
          "A_B.zip"] ∧
    progressValues (handleDownload scenarioEnv (loadedComponent ["r1", "r2"])).trace
      = [.int 0, .int 50, .int 100] := by
  have h := handleDownload_all_succeed scenarioEnv (loadedComponent ["r1", "r2"])
    (by
      intro j id _
      by_cases hj : j = 0
      · exact ⟨some filesAB, by simp [scenarioEnv, hj]⟩
      · exact ⟨some [], by simp [scenarioEnv, hj]⟩)
    (fun j id _ => scenario_archiveSucceeds ["r1", "r2"] j id)
  refine ⟨?_, ?_⟩
  · rw [h.1]
    decide
  · rw [h.2.1]
    show [JsInteger.int 0, percentage 1 2, percentage 2 2] = _
    rw [percentage_1_2, percentage_self (by decide)]

/-- C7 fails on the code: with 29 records of 100 processed, `updateProgress` stores 28 and
the style `width: 28%`, while the largest integer not exceeding `100 * 29 / 100` is 29; in a
run over one hundred records the update after the 29th record publishes 28.  The quotient
`29 / 100` is rounded to a double below 0.29, and its product with 100 to one below 29. -/
theorem updateProgress_twentyNineOfHundred :
    (updateProgress twentyNineOfHundred).progressPercentage = .int 28 ∧
    (updateProgress twentyNineOfHundred).progressBarStyle = "width: 28%" ∧
    ⌊(100 : ℚ) * 29 / 100⌋ = 29 ∧
    (progressValues
      (handleDownload scenarioEnv (loadedComponent (List.replicate 100 "r"))).trace)[29]?
        = some (.int 28) := by
  have hp : (updateProgress twentyNineOfHundred).progressPercentage = .int 28 :=
    percentage_29_100
  have hs : (updateProgress twentyNineOfHundred).progressBarStyle
      = "width: " ++ (updateProgress twentyNineOfHundred).progressPercentage.toString ++ "%" :=
    rfl
  refine ⟨hp, ?_, ?_, ?_⟩
  · rw [hs, hp]
    decide
  · norm_num
  · rw [handleDownload_ok_progress scenarioEnv (loadedComponent (List.replicate 100 "r"))
      (fun j id _ => scenario_archiveSucceeds _ j id)]
    have hlen : (loadedComponent (List.replicate 100 "r")).recordIds.length = 100 :=
      List.length_replicate 100 "r"
    have hget : (List.range' 1 100)[28]? = some 29 := by decide
    rw [hlen, List.getElem?_cons_succ, List.getElem?_map, hget]
    exact congrArg some percentage_29_100

/-- C9 as stated fails: on a component whose libraries are loaded and whose two flags are
set, `connectedCallback` calls `loadScript` for both libraries again. -/
theorem connectedCallback_loads_again :
    (loadedComponent []).zipInitialized = true ∧
    (loadedComponent []).fileSaverInitialized = true ∧
    loadCalls (connectedCallback none (loadedComponent [])).2
      = [Event.loadScript "jszip", Event.loadScript "fileSaver"] ∧
    loadCalls (connectedCallback none (loadedComponent [])).2 ≠ [] := by
  decide

/-- C9, as the code has it: `connectedCallback` has no guard, so every call of it, on any
component, issues one load of each of the two libraries; on a component on which it has
already succeeded (both flags and both library fields set) a further call leaves the
component unchanged, whether the new loads succeed or fail. -/
theorem connectedCallback_after_success (load : Option JsVal) (c : Component) :
    loadCalls (connectedCallback load c).2
      = [Event.loadScript "jszip", Event.loadScript "fileSaver"] ∧
    (c.zipInitialized = true → c.fileSaverInitialized = true →
      c.jszipLib = true → c.fileSaverLib = true →
      (connectedCallback load c).1 = c) := by
  cases load with
  | none =>
    refine ⟨rfl, ?_⟩
    intro hzip hsaver hzipLib hsaverLib
    cases c
    simp only at hzip hsaver hzipLib hsaverLib
    subst hzip hsaver hzipLib hsaverLib
    rfl
  | some error => exact ⟨rfl, fun _ _ _ _ => rfl⟩

/-- The theorem of C9 on a fresh component, whose first call issues the two loads, and on a
loaded component, which a second call with failing loads issues them again and leaves
unchanged. -/
theorem connectedCallback_after_success_witness :
    loadCalls (connectedCallback none (Component.init ["r1"])).2
      = [Event.loadScript "jszip", Event.loadScript "fileSaver"] ∧
    loadCalls (connectedCallback (some (.str "offline")) (loadedComponent ["r1"])).2
      = [Event.loadScript "jszip", Event.loadScript "fileSaver"] ∧
    (connectedCallback (some (.str "offline")) (loadedComponent ["r1"])).1
      = loadedComponent ["r1"] :=
  ⟨(connectedCallback_after_success none (Component.init ["r1"])).1,
   (connectedCallback_after_success (some (.str "offline")) (loadedComponent ["r1"])).1,
   (connectedCallback_after_success (some (.str "offline")) (loadedComponent ["r1"])).2
      rfl rfl rfl rfl⟩

/-- C10 as stated fails: for an error that is an object without a `message` property, as
the error object of an Apex failure is, the notification carries `"Unknown error"`, not the
message field of the object. -/
theorem showError_object_without_message :
    showError "Error fetching files for record" .objNoMessage
      = [Event.toast "Error fetching files for record" (.str "Unknown error") "error"] ∧
    showError "Error fetching files for record" .objNoMessage
      ≠ [Event.toast "Error fetching files for record" (specMessage .objNoMessage) "error"] := by
  decide

/-- C10, as the code has it: `showError` dispatches exactly one notification, with the
title given and the variant `error`, whose message is `error.message` when the error is an
object that has a `message` property, the error itself when it is a string, and
`"Unknown error"` in every other case, an object without `message` and `null` included. -/
theorem showError_spec (title : String) (error : JsVal) :
    showError title error
      = [Event.toast title
          (match error with
            | .objMessage m => m
            | .str s => .str s
            | _ => .str "Unknown error")
          "error"] := by
  cases error <;> simp [showError, JsVal.truthy, JsVal.typeof, JsVal.hasMessage,
    JsVal.message]

end MassFileDownload
